import Mathlib

/-!
Formal model of system_updater.py: a tool that runs a fixed list of system
update commands concurrently in a bounded thread pool, rebuilds a report in
the original command order, and asks a remote text-generation API for a
summary with a bounded retry loop.

Machine strings are modelled at the character-list level where Python's
str.strip and str.startswith matter; the subprocess of a task, the thread
pool, and the network are modelled as explicit behavior parameters so that
the functions below are total and executable.
-/

/-- Python whitespace as used by str.strip: space, tab, newline, carriage
return, vertical tab and form feed. -/
def pyIsSpace (c : Char) : Bool :=
  c == ' ' || c == '\t' || c == '\n' || c == '\r' || c == '\x0b' || c == '\x0c'

/-- Drop trailing Python whitespace from a character list. -/
def rdropL (l : List Char) : List Char :=
  (l.reverse.dropWhile pyIsSpace).reverse

/-- Python str.strip on a character list: drop leading and trailing
whitespace. -/
def pstripL (l : List Char) : List Char :=
  rdropL (l.dropWhile pyIsSpace)

/-- Python str.strip. -/
def pstrip (s : String) : String :=
  String.mk (pstripL s.data)

/-- Boolean character-list membership test used by pyStartsWith: the first
list read as a contiguous initial segment of the second. -/
def isPre : List Char → List Char → Bool
  | [], _ => true
  | _ :: _, [] => false
  | c :: p2, d :: l2 => c == d && isPre p2 l2

/-- Python str.startswith. -/
def pyStartsWith (s p : String) : Bool :=
  isPre p.data s.data

/-- Python "\n".join. -/
def joinLines : List String → String
  | [] => ("")
  | [l] => l
  | l :: ls => l ++ ("\n") ++ joinLines ls

/-- Python string repetition c * n for a single character. -/
def repChar (c : Char) (n : Nat) : String :=
  String.mk (List.replicate n c)

/-- Configuration constant MODEL from the source. -/
def MODEL : String := ("gemini-2.0-flash-lite")

/-- Configuration constant MAX_WORKERS from the source. -/
def MAX_WORKERS : Nat := 6

/-- Configuration constant TIMEOUT_SECONDS from the source. -/
def TIMEOUT_SECONDS : Nat := 300

/-- One entry of UPDATE_COMMANDS: the shell command, its human-readable
description, and the shell_source flag selecting a login-shell spawn. -/
structure CmdConfig where
  cmd : String
  desc : String
  shell_source : Bool
deriving DecidableEq, Repr

/-- The UPDATE_COMMANDS table from the source. -/
def UPDATE_COMMANDS : List CmdConfig :=
  [⟨("brew update && brew upgrade && brew cleanup && brew doctor || true"), ("Updating Homebrew"), false⟩,
   ⟨("nvm upgrade"), ("Updating NVM"), true⟩,
   ⟨("pnpm up -g --latest"), ("Updating PNPM"), false⟩,
   ⟨("claude update"), ("Updating Claude"), false⟩,
   ⟨("omz update"), ("Updating Oh My Zsh"), true⟩]

/-- Behavior of the subprocess.run call made for one task: the child
process completes with an exit code and captured stdout/stderr, or the
per-task timeout expires (subprocess.TimeoutExpired), or the attempt to run
it raises some other exception (for example a missing binary). -/
inductive ProcResult where
  | completed (returncode : Int) (stdout stderr : String)
  | timedOut
  | raised (msg : String)
deriving DecidableEq, Repr

/-- run_command from the source: converts the outcome of the subprocess
into a (success, output, desc) triple. The branch on shell_source changes
only how the process is spawned, not how its result is converted: on
completion the output is the stdout and stderr joined by a newline and
stripped, success is exit code zero; a timeout and an exception are turned
into fixed failure strings. -/
def run_command (cfg : CmdConfig) (pr : ProcResult) : Bool × String × String :=
  match pr with
  | ProcResult.completed rc out err =>
      (rc == 0, pstrip (out ++ ("\n") ++ err), cfg.desc)
  | ProcResult.timedOut =>
      (false, ("❌ Timed out after ") ++ toString TIMEOUT_SECONDS ++ ("s"), cfg.desc)
  | ProcResult.raised m =>
      (false, ("❌ Execution failed: ") ++ m, cfg.desc)

/-- Python dict assignment d[k] = v on an association list: an existing key
keeps its position and gets the new value, a new key is appended. -/
def dictInsert {α : Type} (d : List (String × α)) (k : String) (v : α) : List (String × α) :=
  match d with
  | [] => [(k, v)]
  | (k2, v2) :: rest =>
      if k2 = k then (k2, v) :: rest else (k2, v2) :: dictInsert rest k v

/-- Python dict lookup (d[k] guarded by k in d) on an association list. -/
def dictLookup {α : Type} (d : List (String × α)) (k : String) : Option α :=
  match d with
  | [] => none
  | (k2, v) :: rest => if k2 = k then some v else dictLookup rest k

/-- The pair recorded for one task by the as_completed loop of
run_all_updates: if the worker future raised, the synthetic failing entry
built from the exception text; otherwise the success flag and output
returned by run_command. The behavior w says, per config, whether the
worker raised or which subprocess behavior run_command saw. -/
def taskOutcome (w : CmdConfig → Except String ProcResult) (cfg : CmdConfig) : Bool × String :=
  match w cfg with
  | Except.error e => (false, ("Exception: ") ++ e)
  | Except.ok pr => ((run_command cfg pr).1, (run_command cfg pr).2.1)

/-- The results dict after the as_completed loop has processed every
submitted future, given the order in which the futures completed. -/
def buildResults (w : CmdConfig → Except String ProcResult) (order : List CmdConfig) : List (String × (Bool × String)) :=
  order.foldl (fun d cfg => dictInsert d cfg.desc (taskOutcome w cfg)) []

/-- The (desc, (success, output)) entries the report loop of
run_all_updates walks: one entry per input config whose description is a
key of the results dict, in input order. -/
def report_entries (tasks : List CmdConfig) (results : List (String × (Bool × String))) : List (String × (Bool × String)) :=
  tasks.filterMap (fun cfg => (dictLookup results cfg.desc).map (fun r => (cfg.desc, r)))

/-- The report lines appended for one entry: the icon line, a dash rule as
long as the description, the output or the "(No output)" sentinel when the
output strips to nothing, the failure marker on failure, and a blank
line. -/
def report_block (d : String) (ok : Bool) (out : String) : List String :=
  ((if ok then ("✅") else ("❌")) ++ (" ") ++ d ++ (":")) ::
  repChar ('-') d.length ::
  (if pstrip out = ("") then ("(No output)") else out) ::
  (if ok then [("")] else [("⚠️ Command failed"), ("")])

/-- The total execution time rendered to one decimal place. The elapsed
wall-clock time is modelled as a whole number of tenths of seconds, which
sidesteps binary floating point without changing any claim below. -/
def fmtTenths (t : Nat) : String :=
  toString (t / 10) ++ (".") ++ toString (t % 10)

/-- The lines of the report assembled by run_all_updates: the fixed header,
the total-time line, a blank line, then the blocks of all entries. -/
def report_lines (tasks : List CmdConfig) (results : List (String × (Bool × String))) (tenths : Nat) : List String :=
  ("SYSTEM UPDATE REPORT") ::
  repChar ('=') 60 ::
  (("Total execution time: ") ++ fmtTenths tenths ++ (" seconds")) ::
  ("") ::
  List.flatten ((report_entries tasks results).map (fun e => report_block e.1 e.2.1 e.2.2))

/-- run_all_updates from the source as a function of the task list, the
per-task worker behavior, the completion order of the futures, and the
measured elapsed tenths of seconds: the final report text. -/
def run_all_updates (tasks : List CmdConfig) (w : CmdConfig → Except String ProcResult) (order : List CmdConfig) (tenths : Nat) : String :=
  joinLines (report_lines tasks (buildResults w order) tenths)

/-- State of the thread pool used by run_all_updates: futures queued but
not yet picked up, tasks currently executing, worker threads spawned, and
futures submitted so far. -/
structure PoolState where
  pending : Nat
  running : Nat
  threads : Nat
  submitted : Nat
deriving DecidableEq, Repr

/-- Step relation of concurrent.futures.ThreadPoolExecutor with worker
bound W, as run_all_updates instantiates it with max_workers = MAX_WORKERS:
a submit may spawn at most one new worker thread and only while fewer than
W exist, a queued task starts only on an idle thread, and a running task
may finish. -/
inductive PoolStep (W : Nat) : PoolState → PoolState → Prop where
  | submitSpawn (s : PoolState) (h : s.threads < W) :
      PoolStep W s ⟨s.pending + 1, s.running, s.threads + 1, s.submitted + 1⟩
  | submitQueue (s : PoolState) :
      PoolStep W s ⟨s.pending + 1, s.running, s.threads, s.submitted + 1⟩
  | startTask (s : PoolState) (hp : 0 < s.pending) (hr : s.running < s.threads) :
      PoolStep W s ⟨s.pending - 1, s.running + 1, s.threads, s.submitted⟩
  | finishTask (s : PoolState) (hr : 0 < s.running) :
      PoolStep W s ⟨s.pending, s.running - 1, s.threads, s.submitted⟩

/-- The pool starts with nothing submitted, nothing running and no
threads. -/
def poolInit : PoolState := ⟨0, 0, 0, 0⟩

/-- States the executor can reach during a run. -/
def poolReachable (W : Nat) (s : PoolState) : Prop :=
  Relation.ReflTransGen (PoolStep W) poolInit s

/-- JSON values as json.loads produces them. -/
inductive JVal where
  | jNull
  | jBool (b : Bool)
  | jNum (n : Int)
  | jStr (s : String)
  | jArr (xs : List JVal)
  | jObj (fields : List (String × JVal))
deriving Repr

/-- Python dict.get(k, default) on a parsed JSON value: on anything but a
dict it raises an AttributeError. -/
def dictGet (v : JVal) (k : String) (dflt : JVal) : Except String JVal :=
  match v with
  | JVal.jObj fields => Except.ok ((dictLookup fields k).getD dflt)
  | _ => Except.error ("AttributeError")

/-- Python [0] indexing on a parsed JSON value: the first element of a
list, the first character of a string, an IndexError when empty, and a
TypeError on other values. -/
def index0 (v : JVal) : Except String JVal :=
  match v with
  | JVal.jArr [] => Except.error ("IndexError")
  | JVal.jArr (x :: _) => Except.ok x
  | JVal.jStr s =>
      match s.data with
      | [] => Except.error ("IndexError")
      | c :: _ => Except.ok (JVal.jStr (String.mk [c]))
  | _ => Except.error ("TypeError")

/-- The field chain of generate_summary on the decoded response body, with
the defaults of the source: candidates defaults to a one-empty-dict list,
content to an empty dict, parts to a one-empty-dict list, and text to the
placeholder string. -/
def extractText (v : JVal) : Except String JVal := do
  let c ← dictGet v ("candidates") (JVal.jArr [JVal.jObj []])
  let c0 ← index0 c
  let content ← dictGet c0 ("content") (JVal.jObj [])
  let parts ← dictGet content ("parts") (JVal.jArr [JVal.jObj []])
  let p0 ← index0 parts
  dictGet p0 ("text") (JVal.jStr ("No summary generated"))

/-- Behavior of one urlopen attempt of generate_summary: the call raises
(urllib raises HTTPError for non-2xx statuses and URLError on network
failure), or it returns a response with a status code and a body whose
json.loads outcome is given. -/
inductive Attempt where
  | raises (msg : String)
  | responds (status : Nat) (body : Except String JVal)

/-- One iteration of the retry loop body of generate_summary: an exception
from the request, the JSON decode, or the field chain lands in the except
arm; a 200 response whose field chain evaluates executes the early return;
a response with a non-200 status that does not raise falls through without
an exception. -/
def tryAttempt (a : Attempt) : Except String (Option JVal) :=
  match a with
  | Attempt.raises m => Except.error m
  | Attempt.responds status body =>
      if status = 200 then
        match body with
        | Except.error m => Except.error m
        | Except.ok v =>
            match extractText v with
            | Except.error m => Except.error m
            | Except.ok t => Except.ok (some t)
      else Except.ok none

/-- True when the attempt does not execute the early return of the retry
loop. -/
def attemptFails (a : Attempt) : Bool :=
  match tryAttempt a with
  | Except.ok (some _) => false
  | _ => true

/-- The retry loop of generate_summary: fuel counts the remaining range(3)
iterations, i the attempts already made, lastError the message of the last
caught exception, slept the seconds of time.sleep(1) performed so far.
Returns the returned value together with the attempts made and the total
seconds slept. -/
def gsAttempts (env : Nat → Attempt) : Nat → Nat → String → Nat → JVal × Nat × Nat
  | i, 0, lastError, slept =>
      (JVal.jStr (("❌ Failed to generate summary: ") ++ lastError), i, slept)
  | i, fuel + 1, lastError, slept =>
      match tryAttempt (env i) with
      | Except.ok (some v) => (v, i + 1, slept)
      | Except.ok none => gsAttempts env (i + 1) fuel lastError slept
      | Except.error m => gsAttempts env (i + 1) fuel m (slept + 1)

/-- generate_summary from the source as a function of the GEMINI_API_KEY
credential and the behavior of the network on each attempt: an unset (or
empty, since Python tests truthiness) key returns the error string before
any request is built; otherwise the loop makes up to 3 attempts. The
result carries the returned value, the number of urlopen attempts made,
and the seconds slept. -/
def generate_summary (apiKey : Option String) (env : Nat → Attempt) : JVal × Nat × Nat :=
  match apiKey with
  | none => (JVal.jStr ("❌ Error: GEMINI_API_KEY environment variable is not set"), 0, 0)
  | some k =>
      if k = ("") then (JVal.jStr ("❌ Error: GEMINI_API_KEY environment variable is not set"), 0, 0)
      else gsAttempts env 0 3 ("Unknown error") 0

/-- Console output events of the tail of main. -/
inductive PrintEvent where
  | markdown (s : String)
  | text (s : String)
  | panel (s : String)
deriving DecidableEq, Repr

/-- The tail of main: render the summary as Markdown unless it starts with
the cross mark, in which case print it plainly followed by the raw report
panel; none models the AttributeError Python would raise were the summary
value not a str. -/
def main_output (summary : JVal) (update_output : String) : Option (List PrintEvent) :=
  match summary with
  | JVal.jStr s =>
      some (if pyStartsWith s ("❌") then
              [PrintEvent.text s, PrintEvent.panel update_output]
            else [PrintEvent.markdown s])
  | _ => none

/-- String concatenation acts as list concatenation on the underlying
characters. -/
theorem sdata_append (s t : String) : (s ++ t).data = s.data ++ t.data := rfl

/-- The characters of pstrip of a string. -/
theorem pstrip_data (s : String) : (pstrip s).data = pstripL s.data := rfl

/-- dropWhile returns a suffix of its input. -/
theorem dropWhile_suffix_self (p : Char → Bool) (l : List Char) : l.dropWhile p <:+ l := by
  induction l with
  | nil => exact ⟨[], rfl⟩
  | cons a t ih =>
    cases h : p a with
    | true =>
      simp only [List.dropWhile_cons, h, if_true]
      exact ih.trans ⟨[a], rfl⟩
    | false =>
      simp only [List.dropWhile_cons, h]
      exact ⟨[], rfl⟩

/-- dropWhile of the right half survives as a suffix of dropWhile of an
append. -/
theorem dropWhile_suffix_append (p : Char → Bool) (a b : List Char) :
    b.dropWhile p <:+ (a ++ b).dropWhile p := by
  induction a with
  | nil => exact ⟨[], rfl⟩
  | cons c a ih =>
    cases h : p c with
    | true =>
      simpa [List.dropWhile_cons, h] using ih
    | false =>
      simp only [List.cons_append, List.dropWhile_cons, h]
      exact ((dropWhile_suffix_self p b).trans ⟨a, rfl⟩).trans ⟨[c], rfl⟩

/-- dropWhile of the left half survives as an initial segment of dropWhile
of an append. -/
theorem dropWhile_prefix_append (p : Char → Bool) (a b : List Char) :
    a.dropWhile p <+: (a ++ b).dropWhile p := by
  induction a with
  | nil => exact ⟨b.dropWhile p, rfl⟩
  | cons c a ih =>
    cases h : p c with
    | true =>
      simpa [List.dropWhile_cons, h] using ih
    | false =>
      simp only [List.cons_append, List.dropWhile_cons, h]
      exact ⟨b, rfl⟩

/-- Right-stripping the right half of an append yields a suffix of
right-stripping the whole. -/
theorem rdropL_suffix_append (a b : List Char) : rdropL b <:+ rdropL (a ++ b) := by
  obtain ⟨t, ht⟩ := dropWhile_prefix_append pyIsSpace b.reverse a.reverse
  refine ⟨t.reverse, ?_⟩
  unfold rdropL
  rw [List.reverse_append, ← ht, List.reverse_append]

/-- Stripping a string keeps the strip of any right part as a contiguous
piece: the key fact connecting the stripped combined output to the stripped
stderr. -/
theorem pstripL_infix_append (a t : List Char) : pstripL t <:+: pstripL (a ++ t) := by
  obtain ⟨w, hw⟩ := dropWhile_suffix_append pyIsSpace a t
  have h2 := rdropL_suffix_append w (t.dropWhile pyIsSpace)
  rw [hw] at h2
  exact h2.isInfix

/-- The stripped stderr is a contiguous piece of the stripped combined
output of run_command. -/
theorem pstrip_stderr_infix (out err : String) :
    (pstrip err).data <:+: (pstrip (out ++ ("\n") ++ err)).data := by
  have h : (out ++ ("\n") ++ err).data = (out.data ++ ['\n']) ++ err.data := rfl
  rw [pstrip_data, pstrip_data, h]
  exact pstripL_infix_append (out.data ++ ['\n']) err.data

/-- A line of the list is a contiguous piece of the newline join. -/
theorem mem_joinLines_infix (s : String) : ∀ (L : List String), s ∈ L → s.data <:+: (joinLines L).data := by
  intro L
  induction L with
  | nil => intro h; cases h
  | cons l ls ih =>
    intro h
    cases ls with
    | nil =>
      have hs : s = l := by simpa using h
      subst hs
      exact ⟨[], [], by simp [joinLines]⟩
    | cons l2 ls2 =>
      have hd : (joinLines (l :: l2 :: ls2)).data
          = l.data ++ '\n' :: (joinLines (l2 :: ls2)).data := by
        show (l ++ ("\n") ++ joinLines (l2 :: ls2)).data = _
        rw [sdata_append, sdata_append]
        simp
      cases h with
      | head =>
        refine ⟨[], '\n' :: (joinLines (l2 :: ls2)).data, ?_⟩
        rw [hd]
        simp
      | tail _ hm =>
        have h2 := ih hm
        rw [hd]
        exact h2.trans ⟨l.data ++ ['\n'], by simp⟩

/-- isPre survives extending the larger list on the right. -/
theorem isPre_append (p : List Char) : ∀ (l m : List Char), isPre p l = true → isPre p (l ++ m) = true := by
  induction p with
  | nil => intro l m _; rfl
  | cons c p2 ih =>
    intro l m h
    cases l with
    | nil => exact absurd h (by simp [isPre])
    | cons d l2 =>
      simp only [List.cons_append, isPre, Bool.and_eq_true] at h ⊢
      exact ⟨h.1, ih l2 m h.2⟩

/-- startswith survives appending to the scanned string. -/
theorem pyStartsWith_append (a m p : String) (h : pyStartsWith a p = true) :
    pyStartsWith (a ++ m) p = true := by
  unfold pyStartsWith at h ⊢
  rw [sdata_append]
  exact isPre_append p.data a.data m.data h

/-- Inserting a key absent from the dict appends the pair. -/
theorem dictInsert_fresh {α : Type} (d : List (String × α)) (k : String) (v : α)
    (h : ∀ q ∈ d, q.1 ≠ k) : dictInsert d k v = d ++ [(k, v)] := by
  induction d with
  | nil => rfl
  | cons q rest ih =>
    obtain ⟨k2, v2⟩ := q
    have hk : k2 ≠ k := h (k2, v2) (List.mem_cons_self _ _)
    simp only [dictInsert, if_neg hk, List.cons_append, List.cons.injEq, true_and]
    exact ih (fun q2 hq => h q2 (List.mem_cons_of_mem _ hq))

/-- Folding dict insertions of pairwise distinct keys over a dict free of
those keys appends the keyed pairs in fold order. -/
theorem foldl_dictInsert_eq (f : CmdConfig → Bool × String) :
    ∀ (L : List CmdConfig) (d : List (String × (Bool × String))),
      (∀ cfg ∈ L, ∀ q ∈ d, q.1 ≠ cfg.desc) →
      (L.map (fun c => c.desc)).Nodup →
      L.foldl (fun d2 cfg => dictInsert d2 cfg.desc (f cfg)) d
        = d ++ L.map (fun c => (c.desc, f c)) := by
  intro L
  induction L with
  | nil => intro d _ _; simp
  | cons c rest ih =>
    intro d hd hnd
    have hfresh : ∀ cfg ∈ rest, ∀ q ∈ d ++ [(c.desc, f c)], q.1 ≠ cfg.desc := by
      intro cfg hcfg q hq
      rcases List.mem_append.mp hq with h1 | h2
      · exact hd cfg (List.mem_cons_of_mem _ hcfg) q h1
      · have hq2 : q = (c.desc, f c) := by simpa using h2
        subst hq2
        have hne : c.desc ∉ rest.map (fun c => c.desc) := (List.nodup_cons.mp hnd).1
        intro hEq
        have hEq2 : c.desc = cfg.desc := hEq
        exact hne (by rw [hEq2]; exact List.mem_map_of_mem _ hcfg)
    have hnd2 : (rest.map (fun c => c.desc)).Nodup := (List.nodup_cons.mp hnd).2
    simp only [List.foldl_cons]
    rw [dictInsert_fresh d c.desc (f c) (fun q hq => hd c (List.mem_cons_self _ _) q hq)]
    rw [ih (d ++ [(c.desc, f c)]) hfresh hnd2]
    simp

/-- With pairwise distinct descriptions the results dict is exactly the
completion order, keyed. -/
theorem buildResults_eq (w : CmdConfig → Except String ProcResult) (order : List CmdConfig)
    (hnd : (order.map (fun c => c.desc)).Nodup) :
    buildResults w order = order.map (fun c => (c.desc, taskOutcome w c)) := by
  have h := foldl_dictInsert_eq (taskOutcome w) order [] (by intro cfg _ q hq; cases hq) hnd
  simpa [buildResults] using h

/-- Looking a member's description up in the keyed list finds its value,
when descriptions are pairwise distinct. -/
theorem dictLookup_map (f : CmdConfig → Bool × String) :
    ∀ (L : List CmdConfig) (t : CmdConfig),
      (L.map (fun c => c.desc)).Nodup → t ∈ L →
      dictLookup (L.map (fun c => (c.desc, f c))) t.desc = some (f t) := by
  intro L
  induction L with
  | nil => intro t _ ht; cases ht
  | cons c rest ih =>
    intro t hnd ht
    simp only [List.map_cons, dictLookup]
    by_cases h : c.desc = t.desc
    · rcases List.mem_cons.mp ht with rfl | h2
      · simp
      · exfalso
        have hmem : c.desc ∈ rest.map (fun c => c.desc) := by
          rw [h]; exact List.mem_map_of_mem _ h2
        exact (List.nodup_cons.mp hnd).1 hmem
    · have h2 : t ∈ rest := by
        rcases List.mem_cons.mp ht with rfl | h2
        · exact absurd rfl h
        · exact h2
      rw [if_neg h]
      exact ih t (List.nodup_cons.mp hnd).2 h2

/-- Walking any sub-collection of the order against the keyed results gives
one entry per config, in walk order. -/
theorem report_entries_map (w : CmdConfig → Except String ProcResult) (order : List CmdConfig)
    (hndo : (order.map (fun c => c.desc)).Nodup) :
    ∀ (tasks : List CmdConfig), (∀ cfg ∈ tasks, cfg ∈ order) →
      report_entries tasks (order.map (fun c => (c.desc, taskOutcome w c)))
        = tasks.map (fun c => (c.desc, taskOutcome w c)) := by
  intro tasks
  induction tasks with
  | nil => intro _; rfl
  | cons c rest ih =>
    intro hmem
    have hc : c ∈ order := hmem c (List.mem_cons_self _ _)
    have hl := dictLookup_map (taskOutcome w) order c hndo hc
    simp only [report_entries, List.filterMap_cons, hl, Option.map_some']
    exact congrArg (List.cons _) (ih (fun cfg h => hmem cfg (List.mem_cons_of_mem _ h)))

/-- The entries of the final report are the input tasks in input order,
each with its own outcome, for every completion order of the futures. -/
theorem report_entries_eq (tasks order : List CmdConfig) (w : CmdConfig → Except String ProcResult)
    (hnd : (tasks.map (fun c => c.desc)).Nodup) (hperm : order.Perm tasks) :
    report_entries tasks (buildResults w order)
      = tasks.map (fun c => (c.desc, taskOutcome w c)) := by
  have hndo : (order.map (fun c => c.desc)).Nodup := by
    have hp : (order.map (fun c => c.desc)).Perm (tasks.map (fun c => c.desc)) := hperm.map _
    exact hp.nodup_iff.mpr hnd
  rw [buildResults_eq w order hndo]
  exact report_entries_map w order hndo tasks (fun cfg h => hperm.mem_iff.mpr h)

/-- Invariant of the executor: tasks in flight never exceed the threads,
threads never exceed the bound, and threads never exceed the submits. -/
theorem poolInv (W : Nat) (s : PoolState) (h : poolReachable W s) :
    s.running ≤ s.threads ∧ s.threads ≤ W ∧ s.threads ≤ s.submitted := by
  have h2 : Relation.ReflTransGen (PoolStep W) poolInit s := h
  clear h
  induction h2 with
  | refl => exact ⟨Nat.le_refl _, Nat.zero_le _, Nat.le_refl _⟩
  | tail _ step ih =>
    obtain ⟨h1, h2, h3⟩ := ih
    cases step with
    | submitSpawn hs => refine ⟨?_, ?_, ?_⟩ <;> dsimp only <;> omega
    | submitQueue => refine ⟨?_, ?_, ?_⟩ <;> dsimp only <;> omega
    | startTask hp hr => refine ⟨?_, ?_, ?_⟩ <;> dsimp only <;> omega
    | finishTask hr => refine ⟨?_, ?_, ?_⟩ <;> dsimp only <;> omega

/-- The retry loop makes at most fuel further attempts. -/
theorem gsAttempts_le (env : Nat → Attempt) :
    ∀ (fuel i : Nat) (le0 : String) (sl : Nat),
      (gsAttempts env i fuel le0 sl).2.1 ≤ i + fuel := by
  intro fuel
  induction fuel with
  | zero => intro i le0 sl; simp [gsAttempts]
  | succ fuel ih =>
    intro i le0 sl
    cases htry : tryAttempt (env i) with
    | ok o =>
      cases o with
      | some v =>
        simp only [gsAttempts, htry]
        omega
      | none =>
        simp only [gsAttempts, htry]
        have := ih (i + 1) le0 sl
        omega
    | error m =>
      simp only [gsAttempts, htry]
      have := ih (i + 1) m (sl + 1)
      omega

/-- When every remaining attempt fails, the loop exhausts its fuel and
surfaces the failure string. -/
theorem gsAttempts_all_fail (env : Nat → Attempt) :
    ∀ (fuel i : Nat) (le0 : String) (sl : Nat),
      (∀ j, j < fuel → attemptFails (env (i + j)) = true) →
      ∃ m sl2, gsAttempts env i fuel le0 sl
        = (JVal.jStr (("❌ Failed to generate summary: ") ++ m), i + fuel, sl2) := by
  intro fuel
  induction fuel with
  | zero =>
    intro i le0 sl _
    exact ⟨le0, sl, by simp [gsAttempts]⟩
  | succ fuel ih =>
    intro i le0 sl hall
    have h0 : attemptFails (env i) = true := by
      have h1 := hall 0 (Nat.succ_pos _)
      simpa using h1
    have hshift : ∀ j, j < fuel → attemptFails (env (i + 1 + j)) = true := by
      intro j hj
      have h2 := hall (j + 1) (by omega)
      have h3 : i + (j + 1) = i + 1 + j := by omega
      rw [h3] at h2
      exact h2
    cases htry : tryAttempt (env i) with
    | ok o =>
      cases o with
      | some v =>
        exfalso
        simp [attemptFails, htry] at h0
      | none =>
        obtain ⟨m, sl2, hm⟩ := ih (i + 1) le0 sl hshift
        refine ⟨m, sl2, ?_⟩
        simp only [gsAttempts, htry]
        rw [(by omega : i + (fuel + 1) = i + 1 + fuel)]
        exact hm
    | error m0 =>
      obtain ⟨m, sl2, hm⟩ := ih (i + 1) m0 (sl + 1) hshift
      refine ⟨m, sl2, ?_⟩
      simp only [gsAttempts, htry]
      rw [(by omega : i + (fuel + 1) = i + 1 + fuel)]
      exact hm

/-- An attempt that executes the early return ends the loop at once. -/
theorem gsAttempts_success_now (env : Nat → Attempt) (i fuel : Nat) (le0 : String) (sl : Nat)
    (v : JVal) (h : tryAttempt (env i) = Except.ok (some v)) :
    gsAttempts env i (fuel + 1) le0 sl = (v, i + 1, sl) := by
  simp only [gsAttempts, h]

/-- A failing attempt moves the loop to the next attempt. -/
theorem gsAttempts_skip (env : Nat → Attempt) (i fuel : Nat) (le0 : String) (sl : Nat)
    (h : attemptFails (env i) = true) :
    ∃ le2 sl2, gsAttempts env i (fuel + 1) le0 sl = gsAttempts env (i + 1) fuel le2 sl2 := by
  cases htry : tryAttempt (env i) with
  | ok o =>
    cases o with
    | some v => simp [attemptFails, htry] at h
    | none => exact ⟨le0, sl, by simp only [gsAttempts, htry]⟩
  | error m => exact ⟨m, sl + 1, by simp only [gsAttempts, htry]⟩

/-- C1: for every input task list with pairwise distinct descriptions and
every completion order of the futures, the report built by run_all_updates
contains exactly one entry per task, in the original input-list order,
independent of the completion order; a task whose worker raised still gets
a synthetic failing entry, never a missing one. -/
theorem c1_report_one_entry_per_task (tasks order : List CmdConfig)
    (w : CmdConfig → Except String ProcResult)
    (hnd : (tasks.map (fun c => c.desc)).Nodup) (hperm : order.Perm tasks) :
    report_entries tasks (buildResults w order)
        = tasks.map (fun c => (c.desc, taskOutcome w c))
      ∧ (report_entries tasks (buildResults w order)).length = tasks.length
      ∧ ∀ t ∈ tasks, ∀ e, w t = Except.error e →
          (t.desc, (false, ("Exception: ") ++ e)) ∈ report_entries tasks (buildResults w order) := by
  have he := report_entries_eq tasks order w hnd hperm
  refine ⟨he, by rw [he]; exact List.length_map _ _, ?_⟩
  intro t ht e hw
  rw [he]
  have hm : (t.desc, taskOutcome w t) ∈ tasks.map (fun c => (c.desc, taskOutcome w c)) :=
    List.mem_map_of_mem _ ht
  simpa [taskOutcome, hw] using hm

/-- Witness for C1: the concrete UPDATE_COMMANDS list with the reversed
completion order. -/
theorem c1_report_one_entry_per_task_witness :
    ((UPDATE_COMMANDS.map (fun c => c.desc)).Nodup
      ∧ UPDATE_COMMANDS.reverse.Perm UPDATE_COMMANDS)
    ∧ (report_entries UPDATE_COMMANDS
        (buildResults (fun _ => Except.ok ProcResult.timedOut) UPDATE_COMMANDS.reverse)).length
      = UPDATE_COMMANDS.length := by
  refine ⟨⟨by decide, List.reverse_perm _⟩, ?_⟩
  exact (c1_report_one_entry_per_task UPDATE_COMMANDS UPDATE_COMMANDS.reverse
    (fun _ => Except.ok ProcResult.timedOut) (by decide) (List.reverse_perm _)).2.1

/-- C2 counterexample: with empty stdout and a stderr ending in a newline,
a nonzero exit yields the output "boom", so the raw captured stderr
"boom\n" is not embedded in the returned output string. -/
theorem c2_cex_raw_stderr_not_embedded :
    (run_command ⟨("true"), ("T"), false⟩ (ProcResult.completed 1 ("") ("boom\n"))).2.1 = ("boom")
    ∧ ¬ ((("boom\n") : String).data <:+:
        (run_command ⟨("true"), ("T"), false⟩ (ProcResult.completed 1 ("") ("boom\n"))).2.1.data) := by
  refine ⟨by decide, by decide⟩

/-- C2 amended: run_command is a total function of the subprocess behavior
(no exception propagates in the embedding), and every failure mode yields
success = false with the failure category embedded in the output: the
timeout message, the execution-error message, or, for a nonzero exit, the
captured stderr up to the whitespace stripping applied to the combined
output. -/
theorem c2_failure_modes_reported (cfg : CmdConfig) :
    run_command cfg ProcResult.timedOut
        = (false, ("❌ Timed out after ") ++ toString TIMEOUT_SECONDS ++ ("s"), cfg.desc)
    ∧ (∀ m, run_command cfg (ProcResult.raised m)
        = (false, ("❌ Execution failed: ") ++ m, cfg.desc))
    ∧ (∀ (rc : Int) (out err : String), rc ≠ 0 →
        (run_command cfg (ProcResult.completed rc out err)).1 = false
        ∧ (pstrip err).data <:+: (run_command cfg (ProcResult.completed rc out err)).2.1.data) := by
  refine ⟨rfl, fun m => rfl, fun rc out err h => ⟨?_, ?_⟩⟩
  · show (rc == 0) = false
    exact beq_eq_false_iff_ne.mpr h
  · exact pstrip_stderr_infix out err

/-- Witness for C2 at a concrete nonzero exit. -/
theorem c2_failure_modes_reported_witness :
    (1 : Int) ≠ 0
    ∧ ((run_command ⟨("x"), ("W2"), false⟩ (ProcResult.completed 1 ("a") ("b"))).1 = false
      ∧ (pstrip ("b")).data <:+:
        (run_command ⟨("x"), ("W2"), false⟩ (ProcResult.completed 1 ("a") ("b"))).2.1.data) :=
  ⟨by decide, (c2_failure_modes_reported ⟨("x"), ("W2"), false⟩).2.2 1 ("a") ("b") (by decide)⟩

/-- C3 counterexample: with stdout "ok" and stderr "err\n" the returned
output is "ok\nerr", which is neither the plain concatenation of stdout
and stderr trimmed (that would be "okerr") nor a string containing the raw
captured stderr. -/
theorem c3_cex_not_plain_concat :
    (run_command ⟨("true"), ("T"), false⟩ (ProcResult.completed 1 ("ok") ("err\n"))).2.1
        ≠ pstrip (("ok") ++ ("err\n"))
    ∧ ¬ ((("err\n") : String).data <:+:
        (run_command ⟨("true"), ("T"), false⟩ (ProcResult.completed 1 ("ok") ("err\n"))).2.1.data) := by
  refine ⟨by decide, by decide⟩

/-- C3 amended: for a subprocess that completes without timeout or
execution error, success is true exactly when the exit code is zero, the
returned output is stdout and stderr joined by a newline and trimmed of
leading and trailing whitespace, and a nonzero exit yields success = false
with the trimmed captured stderr contained in the output. -/
theorem c3_completed_success_and_output (cfg : CmdConfig) (rc : Int) (out err : String) :
    ((run_command cfg (ProcResult.completed rc out err)).1 = true ↔ rc = 0)
    ∧ (run_command cfg (ProcResult.completed rc out err)).2.1 = pstrip (out ++ ("\n") ++ err)
    ∧ (rc ≠ 0 →
        (run_command cfg (ProcResult.completed rc out err)).1 = false
        ∧ (pstrip err).data <:+: (run_command cfg (ProcResult.completed rc out err)).2.1.data) := by
  refine ⟨?_, rfl, fun h => ⟨?_, pstrip_stderr_infix out err⟩⟩
  · show ((rc == 0) = true ↔ rc = 0)
    exact ⟨fun h2 => by simpa using h2, fun h2 => by simp [h2]⟩
  · show (rc == 0) = false
    exact beq_eq_false_iff_ne.mpr h

/-- Witness for C3 at a concrete nonzero exit. -/
theorem c3_completed_success_and_output_witness :
    (2 : Int) ≠ 0
    ∧ ((run_command ⟨("x"), ("W3"), false⟩ (ProcResult.completed 2 ("x") ("y"))).1 = false
      ∧ (pstrip ("y")).data <:+:
        (run_command ⟨("x"), ("W3"), false⟩ (ProcResult.completed 2 ("x") ("y"))).2.1.data) :=
  ⟨by decide, (c3_completed_success_and_output ⟨("x"), ("W3"), false⟩ 2 ("x") ("y")).2.2 (by decide)⟩

/-- C4: a task of the run whose recorded output strips to nothing is
rendered in the report text of run_all_updates as the nonempty sentinel
"(No output)" rather than as an empty value. -/
theorem c4_empty_output_sentinel (tasks order : List CmdConfig)
    (w : CmdConfig → Except String ProcResult) (tenths : Nat) (t : CmdConfig)
    (hnd : (tasks.map (fun c => c.desc)).Nodup) (hperm : order.Perm tasks)
    (ht : t ∈ tasks) (hempty : pstrip (taskOutcome w t).2 = ("")) :
    (("(No output)") : String) ≠ ("")
    ∧ (("(No output)") : String).data <:+: (run_all_updates tasks w order tenths).data := by
  refine ⟨by decide, ?_⟩
  unfold run_all_updates
  apply mem_joinLines_infix
  have he := report_entries_eq tasks order w hnd hperm
  simp only [report_lines, List.mem_cons]
  refine Or.inr (Or.inr (Or.inr (Or.inr ?_)))
  rw [he]
  apply List.mem_flatten.mpr
  refine ⟨report_block t.desc (taskOutcome w t).1 (taskOutcome w t).2, ?_, ?_⟩
  · exact List.mem_map.mpr ⟨(t.desc, taskOutcome w t), List.mem_map_of_mem _ ht, rfl⟩
  · simp [report_block, hempty]

/-- Witness for C4: a single task producing only whitespace output. -/
theorem c4_empty_output_sentinel_witness :
    (([⟨("true"), ("Demo"), false⟩] : List CmdConfig).map (fun c => c.desc)).Nodup
    ∧ ([⟨("true"), ("Demo"), false⟩] : List CmdConfig).Perm [⟨("true"), ("Demo"), false⟩]
    ∧ (⟨("true"), ("Demo"), false⟩ : CmdConfig) ∈ ([⟨("true"), ("Demo"), false⟩] : List CmdConfig)
    ∧ pstrip (taskOutcome (fun _ => Except.ok (ProcResult.completed 0 ("") (" "))) ⟨("true"), ("Demo"), false⟩).2 = ("")
    ∧ ((("(No output)") : String) ≠ ("")
      ∧ (("(No output)") : String).data <:+:
        (run_all_updates [⟨("true"), ("Demo"), false⟩]
          (fun _ => Except.ok (ProcResult.completed 0 ("") (" "))) [⟨("true"), ("Demo"), false⟩] 5).data) := by
  refine ⟨by decide, List.Perm.refl _, by decide, by decide, ?_⟩
  exact c4_empty_output_sentinel [⟨("true"), ("Demo"), false⟩] [⟨("true"), ("Demo"), false⟩]
    (fun _ => Except.ok (ProcResult.completed 0 ("") (" "))) 5 ⟨("true"), ("Demo"), false⟩
    (by decide) (List.Perm.refl _) (by decide) (by decide)

/-- C5: in every reachable state of the executor that run_all_updates
creates with max_workers = MAX_WORKERS = 6, at most MAX_WORKERS tasks are
executing at any instant, at most MAX_WORKERS worker threads exist, and no
more worker threads exist than futures were submitted — so a task list
shorter than the bound uses only as many workers as it has tasks. -/
theorem c5_concurrency_bound (s : PoolState) (h : poolReachable MAX_WORKERS s) :
    s.running ≤ MAX_WORKERS ∧ s.threads ≤ MAX_WORKERS ∧ s.threads ≤ s.submitted := by
  obtain ⟨h1, h2, h3⟩ := poolInv MAX_WORKERS s h
  exact ⟨h1.trans h2, h2, h3⟩

/-- Witness for C5: the state reached after one submit that spawned a
thread. -/
theorem c5_concurrency_bound_witness :
    poolReachable MAX_WORKERS ⟨1, 0, 1, 1⟩
    ∧ ((⟨1, 0, 1, 1⟩ : PoolState).running ≤ MAX_WORKERS
      ∧ (⟨1, 0, 1, 1⟩ : PoolState).threads ≤ MAX_WORKERS
      ∧ (⟨1, 0, 1, 1⟩ : PoolState).threads ≤ (⟨1, 0, 1, 1⟩ : PoolState).submitted) := by
  have hstep : poolReachable MAX_WORKERS ⟨1, 0, 1, 1⟩ :=
    Relation.ReflTransGen.single (PoolStep.submitSpawn poolInit (by decide))
  exact ⟨hstep, c5_concurrency_bound _ hstep⟩

/-- C6: with GEMINI_API_KEY unset, generate_summary returns the failure
message at once, with zero urlopen attempts and zero sleeps, whatever the
network behavior would have been. -/
theorem c6_no_key_no_network (env : Nat → Attempt) :
    generate_summary none env
      = (JVal.jStr ("❌ Error: GEMINI_API_KEY environment variable is not set"), 0, 0) := rfl

/-- C7 counterexample: a 200 response whose valid JSON body lacks the
nested text field is not treated as a retryable failure: generate_summary
returns the placeholder after a single attempt, and main renders it as a
successful Markdown summary rather than a failure. -/
theorem c7_cex_missing_field_not_retried :
    generate_summary (some ("k")) (fun _ => Attempt.responds 200 (Except.ok (JVal.jObj [])))
        = (JVal.jStr ("No summary generated"), 1, 0)
    ∧ main_output (generate_summary (some ("k"))
          (fun _ => Attempt.responds 200 (Except.ok (JVal.jObj [])))).1 ("report")
        = some [PrintEvent.markdown ("No summary generated")] :=
  ⟨rfl, rfl⟩

/-- C7 amended: with a nonempty key, generate_summary makes at most 3
urlopen attempts; an attempt that raises (urllib raises for every non-2xx
status) or whose JSON body fails to decode is a failure the loop retries
after a one second sleep; the first attempt whose 200 response yields a
value returns it immediately; after three failed attempts the call
returns a failure string rather than raising or blocking; but a 200
response whose valid JSON merely lacks the nested text field ends the
loop at once with the placeholder "No summary generated" instead of being
handled by the retry policy. -/
theorem c7_retry_policy (k : String) (env : Nat → Attempt) (hk : k ≠ ("")) :
    (generate_summary (some k) env).2.1 ≤ 3
    ∧ (∀ v, tryAttempt (env 0) = Except.ok (some v) →
        generate_summary (some k) env = (v, 1, 0))
    ∧ (∀ v, attemptFails (env 0) = true → attemptFails (env 1) = true →
        tryAttempt (env 2) = Except.ok (some v) →
        (generate_summary (some k) env).1 = v ∧ (generate_summary (some k) env).2.1 = 3)
    ∧ ((∀ j, j < 3 → attemptFails (env j) = true) →
        ∃ m sl2, generate_summary (some k) env
          = (JVal.jStr (("❌ Failed to generate summary: ") ++ m), 3, sl2))
    ∧ (env 0 = Attempt.responds 200 (Except.ok (JVal.jObj [])) →
        generate_summary (some k) env = (JVal.jStr ("No summary generated"), 1, 0)) := by
  have hgen : generate_summary (some k) env = gsAttempts env 0 3 ("Unknown error") 0 := by
    simp [generate_summary, hk]
  refine ⟨?_, ?_, ?_, ?_, ?_⟩
  · rw [hgen]
    simpa using gsAttempts_le env 3 0 ("Unknown error") 0
  · intro v hv
    rw [hgen]
    exact gsAttempts_success_now env 0 2 ("Unknown error") 0 v hv
  · intro v h0 h1 h2
    obtain ⟨le2, sl2, hskip0⟩ := gsAttempts_skip env 0 2 ("Unknown error") 0 h0
    have hskip0b : gsAttempts env 0 3 ("Unknown error") 0 = gsAttempts env 1 2 le2 sl2 := hskip0
    obtain ⟨le3, sl3, hskip1⟩ := gsAttempts_skip env 1 1 le2 sl2 h1
    have hskip1b : gsAttempts env 1 2 le2 sl2 = gsAttempts env 2 1 le3 sl3 := hskip1
    have hfin : gsAttempts env 2 1 le3 sl3 = (v, 3, sl3) :=
      gsAttempts_success_now env 2 0 le3 sl3 v h2
    rw [hgen, hskip0b, hskip1b, hfin]
    exact ⟨rfl, rfl⟩
  · intro hall
    obtain ⟨m, sl2, hm⟩ := gsAttempts_all_fail env 3 0 ("Unknown error") 0
      (by intro j hj; simpa using hall j hj)
    exact ⟨m, sl2, by rw [hgen]; simpa using hm⟩
  · intro h0
    rw [hgen]
    have hv : tryAttempt (env 0) = Except.ok (some (JVal.jStr ("No summary generated"))) := by
      rw [h0]
      rfl
    exact gsAttempts_success_now env 0 2 ("Unknown error") 0 _ hv

/-- Witness for C7: a nonempty key and a network that raises on every
attempt exhausts the three retries and surfaces a failure string. -/
theorem c7_retry_policy_witness :
    (("x") : String) ≠ ("")
    ∧ ∃ m sl2, generate_summary (some ("x")) (fun _ => Attempt.raises ("net down"))
        = (JVal.jStr (("❌ Failed to generate summary: ") ++ m), 3, sl2) :=
  ⟨by decide,
   (c7_retry_policy ("x") (fun _ => Attempt.raises ("net down")) (by decide)).2.2.2.1 (by decide)⟩

/-- C8: whenever summarization fails because the credential is missing or
because every retry attempt failed, main still prints the full raw report
text as the fallback panel, so the report stays visible with no summary. -/
theorem c8_report_fallback (apiKey : Option String) (env : Nat → Attempt) (report : String)
    (h : apiKey = none ∨ (∀ j, j < 3 → attemptFails (env j) = true)) :
    ∃ l, main_output (generate_summary apiKey env).1 report = some l
      ∧ PrintEvent.panel report ∈ l := by
  have hcross : ∃ s, (generate_summary apiKey env).1 = JVal.jStr s
      ∧ pyStartsWith s ("❌") = true := by
    cases apiKey with
    | none => exact ⟨_, rfl, by decide⟩
    | some k =>
      by_cases hk : k = ("")
      · subst hk
        exact ⟨_, rfl, by decide⟩
      · cases h with
        | inl h2 => exact absurd h2 (by simp)
        | inr hall =>
          have hgen : generate_summary (some k) env = gsAttempts env 0 3 ("Unknown error") 0 := by
            simp [generate_summary, hk]
          obtain ⟨m, sl2, hm⟩ := gsAttempts_all_fail env 3 0 ("Unknown error") 0
            (by intro j hj; simpa using hall j hj)
          refine ⟨("❌ Failed to generate summary: ") ++ m, ?_, ?_⟩
          · rw [hgen, hm]
          · exact pyStartsWith_append ("❌ Failed to generate summary: ") m ("❌") (by decide)
  obtain ⟨s, hs, hcr⟩ := hcross
  rw [hs]
  refine ⟨[PrintEvent.text s, PrintEvent.panel report], ?_, by simp⟩
  simp [main_output, hcr]

/-- Witness for C8 with the credential unset. -/
theorem c8_report_fallback_witness :
    ∃ l, main_output (generate_summary none (fun _ => Attempt.raises ("net down"))).1 ("RAW") = some l
      ∧ PrintEvent.panel ("RAW") ∈ l :=
  c8_report_fallback none (fun _ => Attempt.raises ("net down")) ("RAW") (Or.inl rfl)

/-- C9 counterexample: with the same task list, the same deterministic
per-task outputs and even the same completion order, two runs whose
measured elapsed times differ produce different report texts, because the
report embeds the measured total execution time; so the text is not
byte-identical across repeated runs from the task outputs alone. -/
theorem c9_cex_elapsed_time_differs :
    run_all_updates UPDATE_COMMANDS (fun _ => Except.ok (ProcResult.completed 0 ("ok") ("")))
        UPDATE_COMMANDS 0
      ≠ run_all_updates UPDATE_COMMANDS (fun _ => Except.ok (ProcResult.completed 0 ("ok") ("")))
        UPDATE_COMMANDS 10 := by
  decide

/-- C9 amended: for a fixed task list with pairwise distinct descriptions,
fixed per-task outcomes and an equal measured elapsed time, the report
text of run_all_updates is byte-identical across runs whatever the
completion orders were: the text does not depend on the completion
order. -/
theorem c9_report_completion_order_independent (tasks o1 o2 : List CmdConfig)
    (w : CmdConfig → Except String ProcResult) (tenths : Nat)
    (hnd : (tasks.map (fun c => c.desc)).Nodup)
    (h1 : o1.Perm tasks) (h2 : o2.Perm tasks) :
    run_all_updates tasks w o1 tenths = run_all_updates tasks w o2 tenths := by
  unfold run_all_updates report_lines
  rw [report_entries_eq tasks o1 w hnd h1, report_entries_eq tasks o2 w hnd h2]

/-- Witness for C9: UPDATE_COMMANDS against its reversed completion
order. -/
theorem c9_report_completion_order_independent_witness :
    ((UPDATE_COMMANDS.map (fun c => c.desc)).Nodup
      ∧ UPDATE_COMMANDS.Perm UPDATE_COMMANDS
      ∧ UPDATE_COMMANDS.reverse.Perm UPDATE_COMMANDS)
    ∧ run_all_updates UPDATE_COMMANDS (fun _ => Except.ok (ProcResult.completed 0 ("ok") ("")))
        UPDATE_COMMANDS 7
      = run_all_updates UPDATE_COMMANDS (fun _ => Except.ok (ProcResult.completed 0 ("ok") ("")))
        UPDATE_COMMANDS.reverse 7 :=
  ⟨⟨by decide, List.Perm.refl _, List.reverse_perm _⟩,
   c9_report_completion_order_independent UPDATE_COMMANDS UPDATE_COMMANDS UPDATE_COMMANDS.reverse
     (fun _ => Except.ok (ProcResult.completed 0 ("ok") (""))) 7 (by decide)
     (List.Perm.refl _) (List.reverse_perm _)⟩

/-- C10: main treats the summarization result as a failure exactly when
the returned string starts with the cross mark: both failure returns of
generate_summary (missing credential and exhausted retries) carry that
prefix, and main suppresses the Markdown rendering and prints the
raw-report fallback precisely for strings with that prefix — including a
genuinely successful summary that happens to begin with it. -/
theorem c10_cross_prefix_failure :
    (∀ env, ∃ s, (generate_summary none env).1 = JVal.jStr s ∧ pyStartsWith s ("❌") = true)
    ∧ (∀ (k : String) (env : Nat → Attempt), k ≠ ("") →
        (∀ j, j < 3 → attemptFails (env j) = true) →
        ∃ s, (generate_summary (some k) env).1 = JVal.jStr s ∧ pyStartsWith s ("❌") = true)
    ∧ (∀ (s r : String),
        (∃ l, main_output (JVal.jStr s) r = some l
          ∧ PrintEvent.panel r ∈ l ∧ PrintEvent.markdown s ∉ l)
        ↔ pyStartsWith s ("❌") = true) := by
  refine ⟨?_, ?_, ?_⟩
  · intro env
    exact ⟨_, rfl, by decide⟩
  · intro k env hk hall
    have hgen : generate_summary (some k) env = gsAttempts env 0 3 ("Unknown error") 0 := by
      simp [generate_summary, hk]
    obtain ⟨m, sl2, hm⟩ := gsAttempts_all_fail env 3 0 ("Unknown error") 0
      (by intro j hj; simpa using hall j hj)
    refine ⟨("❌ Failed to generate summary: ") ++ m, ?_, ?_⟩
    · rw [hgen, hm]
    · exact pyStartsWith_append ("❌ Failed to generate summary: ") m ("❌") (by decide)
  · intro s r
    constructor
    · rintro ⟨l, hl, hpanel, hmd⟩
      cases hfin : pyStartsWith s ("❌") with
      | true => rfl
      | false =>
        exfalso
        simp only [main_output, hfin, Bool.false_eq_true, if_false, Option.some.injEq] at hl
        rw [← hl] at hpanel
        simp at hpanel
    · intro hcr
      refine ⟨[PrintEvent.text s, PrintEvent.panel r], ?_, by simp, by simp⟩
      simp [main_output, hcr]

/-- Witness for C10: a summary string that begins with the cross mark is
routed to the fallback branch, not rendered as Markdown. -/
theorem c10_cross_prefix_failure_witness :
    ∃ l, main_output (JVal.jStr ("❌x")) ("rep") = some l
      ∧ PrintEvent.panel ("rep") ∈ l ∧ PrintEvent.markdown ("❌x") ∉ l :=
  (c10_cross_prefix_failure.2.2 ("❌x") ("rep")).mpr (by decide)
